import Mathlib

/-!
Verification development for the pharmacy management system
(`pharmacy_cli_sqlite.py`): a shallow embedding of the inventory/sale
transaction engine (`Pharmacy.add_medicine`, `sell_medicine`,
`generate_bill`, `record_prescription`, `delete_medicine`) over an
explicit ledger state, together with theorems about the engine's
behaviour.

Modelling conventions:
- SQLite REAL prices are modelled as exact rationals (ℚ); INTEGER
  quantities as ℤ.
- Each SQL table becomes a Lean list kept in rowid (insertion) order;
  `fetchone` on a `WHERE name = ?` query is `List.find?` on that list.
  The `sales`/`sale_items` and `prescriptions`/`prescription_items`
  table pairs, whose child rows are only ever inserted with the id of
  the freshly inserted parent row, are modelled as a parent record
  holding its list of child items.
- Calendar "today" (`date.today()`) and the prescription timestamp
  (`datetime.now()`) are parameters of the operations.
- `datetime.strptime(s, "%Y-%m-%d")` is modelled by `parseDate`,
  following CPython's `_strptime` regular expressions: `%Y` matches
  exactly four digits, `%m` matches `1[0-2]|0[1-9]|[1-9]`, `%d`
  matches `3[01]|[12]\d|0[1-9]|[1-9]`, the whole string must be
  consumed, and the day must exist in the given month/year.
-/

namespace Pharmacy

/-- A calendar date, as produced by `datetime.strptime(_, "%Y-%m-%d").date()`. -/
structure Date where
  year : Nat
  month : Nat
  day : Nat
deriving Repr, DecidableEq

/-- Strict comparison of dates (`exp_date < date.today()`):
lexicographic on (year, month, day). -/
def Date.before (a b : Date) : Bool :=
  a.year < b.year ∨
    (a.year = b.year ∧
      (a.month < b.month ∨ (a.month = b.month ∧ a.day < b.day)))

/-- Numeric value of a digit string (the characters are assumed to be digits). -/
def digitsVal (cs : List Char) : Nat :=
  cs.foldl (fun a c => 10 * a + (c.toNat - 48)) 0

/-- Gregorian leap-year test, as in Python's `calendar.isleap` used by
`datetime.date` validation. -/
def isLeap (y : Nat) : Bool :=
  (y % 4 == 0 && y % 100 != 0) || y % 400 == 0

/-- Number of days in a month, as validated by `datetime.date`. -/
def daysInMonth (y m : Nat) : Nat :=
  if m = 2 then (if isLeap y then 29 else 28)
  else if m = 4 ∨ m = 6 ∨ m = 9 ∨ m = 11 then 30
  else 31

/-- The month field of `%Y-%m-%d`: CPython `_strptime` matches `%m` with
`1[0-2]|0[1-9]|[1-9]`, i.e. one digit with value 1–9 or two digits with
value 01–12. -/
def validMonthStr (cs : List Char) : Bool :=
  cs.all Char.isDigit &&
    ((cs.length == 1 && 1 ≤ digitsVal cs) ||
     (cs.length == 2 && 1 ≤ digitsVal cs && digitsVal cs ≤ 12))

/-- The day field of `%Y-%m-%d`: CPython `_strptime` matches `%d` with
`3[01]|[12]\d|0[1-9]|[1-9]`, i.e. one digit with value 1–9 or two digits
with value 01–31. -/
def validDayStr (cs : List Char) : Bool :=
  cs.all Char.isDigit &&
    ((cs.length == 1 && 1 ≤ digitsVal cs) ||
     (cs.length == 2 && 1 ≤ digitsVal cs && digitsVal cs ≤ 31))

/-- Split of a character list at every dash, the semantics of
`s.split("-")` restricted to what the `%Y-%m-%d` pattern consumes. -/
def splitDashes (cs : List Char) : List (List Char) :=
  match cs with
  | [] => [[]]
  | c :: rest =>
    if c = '-' then [] :: splitDashes rest
    else
      match splitDashes rest with
      | [] => [[c]]
      | g :: gs => (c :: g) :: gs

/-- Models `datetime.strptime(s, "%Y-%m-%d").date()`, returning `none`
exactly when the Python call raises `ValueError` (pattern mismatch,
leftover input, a day that does not exist in the month, or a year below
`MINYEAR = 1`). -/
def parseDate (s : String) : Option Date :=
  match splitDashes s.toList with
  | [yc, mc, dc] =>
    if yc.all Char.isDigit && yc.length == 4 &&
        validMonthStr mc && validDayStr dc then
      let y := digitsVal yc
      let m := digitsVal mc
      let d := digitsVal dc
      if 1 ≤ y ∧ d ≤ daysInMonth y m then some ⟨y, m, d⟩ else none
    else none
  | _ => none

/-- A row of the `medicines` table. -/
structure Medicine where
  id : Nat
  name : String
  price : ℚ
  quantity : ℤ
  supplierId : Option Nat
  expiry : Option String
deriving Repr, DecidableEq

/-- A row of the `suppliers` table. -/
structure Supplier where
  id : Nat
  name : String
  contact : String
deriving Repr, DecidableEq

/-- A row of the `customers` table. -/
structure Customer where
  id : Nat
  name : String
  phone : Option String
deriving Repr, DecidableEq

/-- A row of the `sale_items` table (the owning `sale_id` is implicit in the
nesting inside `Sale`). -/
structure SaleItem where
  medicineId : Nat
  quantity : ℤ
  unitPrice : ℚ
deriving Repr, DecidableEq

/-- A row of the `sales` table together with its `sale_items` rows. -/
structure Sale where
  saleDate : Date
  totalAmount : ℚ
  items : List SaleItem
deriving Repr, DecidableEq

/-- A row of the `prescription_items` table. -/
structure PrescriptionItem where
  medicineId : Nat
  quantity : ℤ
deriving Repr, DecidableEq

/-- A row of the `prescriptions` table together with its
`prescription_items` rows. -/
structure Prescription where
  customerId : Nat
  customerName : String
  createdAt : String
  items : List PrescriptionItem
deriving Repr, DecidableEq

/-- The ledger state: the contents of the SQLite database, each table as a
list in rowid order, plus the next AUTOINCREMENT ids for the two tables
whose generated ids the engine reads back. -/
structure State where
  suppliers : List Supplier
  customers : List Customer
  medicines : List Medicine
  prescriptions : List Prescription
  sales : List Sale
  nextMedId : Nat
  nextCustomerId : Nat
deriving Repr, DecidableEq

/-- The empty database created by `_init_db`. -/
def State.empty : State :=
  { suppliers := [], customers := [], medicines := [], prescriptions := []
    sales := [], nextMedId := 1, nextCustomerId := 1 }

/-- Models `Pharmacy._get_supplier_id`: `SELECT id FROM suppliers WHERE name = ?`,
first row. -/
def getSupplierId (s : State) (name : String) : Option Nat :=
  (s.suppliers.find? (fun sup => sup.name = name)).map Supplier.id

/-- Models `Pharmacy._get_medicine`: `SELECT id, price, quantity, expiry FROM
medicines WHERE name = ?`, first row in rowid order. -/
def getMedicine (s : State) (name : String) : Option Medicine :=
  s.medicines.find? (fun m => m.name = name)

/-- Supplier resolution prologue of `Pharmacy.add_medicine`: a falsy
supplier name (`None` or the empty string) is skipped; an unknown one only
prints a warning and leaves `supplier_id = None`. -/
def resolveSupplier (s : State) (supplierName : Option String) : Option Nat :=
  match supplierName with
  | none => none
  | some sn => if sn = "" then none else getSupplierId s sn

/-- Models `Pharmacy.add_medicine(name, price, quantity, supplier_name,
expiry)`: resolve the supplier, then either update the existing row
(`SET price = ?, quantity = current + q, supplier_id = ?, expiry = ?`)
or insert a fresh row. -/
def addMedicine (s : State) (name : String) (price : ℚ) (quantity : ℤ)
    (supplierName : Option String) (expiry : Option String) : State :=
  let supplierId : Option Nat := resolveSupplier s supplierName
  match getMedicine s name with
  | some med =>
    { s with medicines := s.medicines.map (fun m =>
        if m.id = med.id then
          { m with price := price, quantity := med.quantity + quantity,
                   supplierId := supplierId, expiry := expiry }
        else m) }
  | none =>
    { s with
        medicines := s.medicines ++
          [⟨s.nextMedId, name, price, quantity, supplierId, expiry⟩],
        nextMedId := s.nextMedId + 1 }

/-- Models `Pharmacy.delete_medicine`: `DELETE FROM medicines WHERE name = ?`. -/
def deleteMedicine (s : State) (name : String) : State :=
  { s with medicines := s.medicines.filter (fun m => ¬ m.name = name) }

/-- The expiry gate of `Pharmacy.sell_medicine`: `True` exactly when the
code prints "Cannot sell this medicine. It is expired." and returns, i.e.
when the stored expiry is truthy (not NULL, not the empty string), parses
as `%Y-%m-%d`, and is strictly before today.  A stored string that fails
to parse raises `ValueError`, which the code catches and ignores
("proceeding with sale"). -/
def expiryBlocks (expiry : Option String) (today : Date) : Bool :=
  match expiry with
  | none => false
  | some e =>
    if e = "" then false
    else
      match parseDate e with
      | some d => d.before today
      | none => false

/-- Outcome of `sell_medicine`, one constructor per return path of the
Python function (`None` with "Medicine not available.", `None` with
"Not enough stock.", `None` with the expired message, or the total
price on success). -/
inductive SellResult where
  | notAvailable : SellResult
  | notEnoughStock : SellResult
  | expired : SellResult
  | sold : ℚ → SellResult
deriving Repr, DecidableEq

/-- Models `Pharmacy.sell_medicine(name, quantity)` on a given day: look the
medicine up by name; fail if absent; fail if stock is below the request;
fail if the expiry gate fires; otherwise set the row's quantity to the
snapshot quantity minus the request and append one sale dated today with
one sale-item `(medicine_id, quantity, unit_price)`. -/
def sellMedicine (s : State) (name : String) (quantity : ℤ) (today : Date) :
    SellResult × State :=
  match getMedicine s name with
  | none => (.notAvailable, s)
  | some med =>
    if med.quantity < quantity then (.notEnoughStock, s)
    else if expiryBlocks med.expiry today then (.expired, s)
    else
      let totalPrice := med.price * quantity
      (.sold totalPrice,
        { s with
            medicines := s.medicines.map (fun m =>
              if m.id = med.id then
                { m with quantity := med.quantity - quantity }
              else m),
            sales := s.sales ++
              [⟨today, totalPrice, [⟨med.id, quantity, med.price⟩]⟩] })

/-- The resolution pass of `Pharmacy.generate_bill`: `name ∈ meds_info`
after the first loop, i.e. some purchase line carries this name, the
medicine exists, and that line's requested quantity is within stock.
(`purchases` is a Python dict, so in the program the witness line is
unique; the definition does not assume it.) -/
def billResolved (s : State) (purchases : List (String × ℤ)) (name : String) :
    Bool :=
  purchases.any (fun p =>
    p.1 == name &&
      match getMedicine s p.1 with
      | none => false
      | some med => decide (p.2 ≤ med.quantity))

/-- The pricing pass of `generate_bill`: `subtotal`, summed over the lines
present in `meds_info`, in line order. -/
def billSubtotal (s : State) (purchases : List (String × ℤ)) : ℚ :=
  purchases.foldl (fun acc p =>
    if billResolved s purchases p.1 then
      match getMedicine s p.1 with
      | some med => acc + med.price * p.2
      | none => acc
    else acc) 0

/-- Steps 3–5 of `generate_bill`: `total = subtotal + tax - discount` with
`tax = subtotal * 0.05` and `discount = subtotal * 0.10` when
`subtotal >= 1000`, else `0`. -/
def billTotal (s : State) (purchases : List (String × ℤ)) : ℚ :=
  let subtotal := billSubtotal s purchases
  let tax := subtotal * 0.05
  let discount := if 1000 ≤ subtotal then subtotal * 0.10 else 0
  subtotal + tax - discount

/-- The `sale_items` rows inserted by the commit loop of `generate_bill`:
one `(medicine_id, quantity, unit_price)` row per resolved line, in line
order, at the snapshot price. -/
def billItems (s : State) (purchases : List (String × ℤ)) : List SaleItem :=
  purchases.filterMap (fun p =>
    if billResolved s purchases p.1 then
      (getMedicine s p.1).map (fun med => ⟨med.id, p.2, med.price⟩)
    else none)

/-- The stock updates of the commit loop of `generate_bill`: for each
resolved line, `UPDATE medicines SET quantity = ? WHERE id = ?` with
`new_qty = med["quantity"] - qty` computed from the `meds_info` snapshot
taken before the loop. -/
def billCommitMeds (s : State) (purchases : List (String × ℤ)) :
    List Medicine :=
  purchases.foldl (fun meds p =>
    if billResolved s purchases p.1 then
      match getMedicine s p.1 with
      | some med =>
        meds.map (fun m =>
          if m.id = med.id then { m with quantity := med.quantity - p.2 }
          else m)
      | none => meds
    else meds) s.medicines

/-- Models `Pharmacy.generate_bill(purchases)` on a given day: resolve the lines,
price them, and either short-circuit with `0.0` when the subtotal is zero
(no sale row, no stock change) or commit: insert one sale row holding the
total and the resolved lines' sale-items, and write each resolved line's
new stock quantity. -/
def generateBill (s : State) (purchases : List (String × ℤ)) (today : Date) :
    ℚ × State :=
  let subtotal := billSubtotal s purchases
  let total := billTotal s purchases
  if subtotal = 0 then (0, s)
  else
    (total,
      { s with
          medicines := billCommitMeds s purchases,
          sales := s.sales ++ [⟨today, total, billItems s purchases⟩] })

/-- Models `Pharmacy._get_or_create_customer`: `SELECT id FROM customers WHERE
name = ? AND (phone = ? OR phone IS NULL)`, first row; insert a fresh row
when absent.  Returns the customer id and the updated state. -/
def getOrCreateCustomer (s : State) (name : String) (phone : Option String) :
    Nat × State :=
  match s.customers.find? (fun c => c.name = name ∧
      (c.phone = phone ∨ c.phone = none)) with
  | some c => (c.id, s)
  | none =>
    (s.nextCustomerId,
      { s with
          customers := s.customers ++ [⟨s.nextCustomerId, name, phone⟩],
          nextCustomerId := s.nextCustomerId + 1 })

/-- The `prescription_items` rows inserted by `record_prescription`: one
row per item whose medicine name resolves; unknown names are skipped. -/
def prescriptionItems (s : State) (items : List (String × ℤ)) :
    List PrescriptionItem :=
  items.filterMap (fun p =>
    (getMedicine s p.1).map (fun med => ⟨med.id, p.2⟩))

/-- Models `Pharmacy.record_prescription(customer, phone, items)` at a given
timestamp: get or create the customer, insert one prescription row, and
insert one prescription-item row per item whose medicine exists. -/
def recordPrescription (s : State) (customer : String)
    (phone : Option String) (items : List (String × ℤ)) (now : String) :
    State :=
  let (customerId, s') := getOrCreateCustomer s customer phone
  { s' with prescriptions := s'.prescriptions ++
      [⟨customerId, customer, now, prescriptionItems s' items⟩] }


/-- One invocation of an engine operation, with the call's inputs (and, for
operations that read the clock, the current date / timestamp). -/
inductive Op where
  | addMedicine (name : String) (price : ℚ) (quantity : ℤ)
      (supplierName : Option String) (expiry : Option String) : Op
  | sellMedicine (name : String) (quantity : ℤ) (today : Date) : Op
  | generateBill (purchases : List (String × ℤ)) (today : Date) : Op
  | recordPrescription (customer : String) (phone : Option String)
      (items : List (String × ℤ)) (now : String) : Op
  | deleteMedicine (name : String) : Op

/-- State transition of one engine operation (return values discarded). -/
def applyOp (s : State) : Op → State
  | .addMedicine name price quantity supplierName expiry =>
      addMedicine s name price quantity supplierName expiry
  | .sellMedicine name quantity today => (sellMedicine s name quantity today).2
  | .generateBill purchases today => (generateBill s purchases today).2
  | .recordPrescription customer phone items now =>
      recordPrescription s customer phone items now
  | .deleteMedicine name => deleteMedicine s name

/-- Input validation performed at the collaborator boundary (the CLI's
`read_int`/`read_float` loops feed the engine validated numbers, and a
Python dict cannot carry the same key twice): quantities are non-negative,
prices are non-negative, and the purchase / item mappings have distinct
keys. -/
def ValidOp : Op → Prop
  | .addMedicine _ price quantity _ _ => 0 ≤ price ∧ 0 ≤ quantity
  | .sellMedicine _ quantity _ => 0 ≤ quantity
  | .generateBill purchases _ =>
      (∀ p ∈ purchases, 0 ≤ p.2) ∧ (purchases.map Prod.fst).Nodup
  | .recordPrescription _ _ items _ =>
      (∀ p ∈ items, 0 ≤ p.2) ∧ (items.map Prod.fst).Nodup
  | .deleteMedicine _ => True

/-- Quantity invariant of the data model: every medicine row has a
non-negative stock quantity. -/
def QuantitiesNonneg (s : State) : Prop :=
  ∀ m ∈ s.medicines, 0 ≤ m.quantity

/-! ### Helper lemmas -/

/-- A row returned by a name lookup is a row of the table. -/
lemma getMedicine_mem {s : State} {name : String} {med : Medicine}
    (h : getMedicine s name = some med) : med ∈ s.medicines :=
  List.mem_of_find?_eq_some h

/-- A row returned by a name lookup carries the looked-up name. -/
lemma getMedicine_name {s : State} {name : String} {med : Medicine}
    (h : getMedicine s name = some med) : med.name = name := by
  have := List.find?_some h
  simpa using this

/-- Lookup by name commutes with a row transformation that does not touch
the `name` column. -/
lemma find?_name_map (f : Medicine → Medicine)
    (hf : ∀ m, (f m).name = m.name) (l : List Medicine) (name : String) :
    (l.map f).find? (fun m => m.name = name) =
      (l.find? (fun m => m.name = name)).map f := by
  rw [List.find?_map]
  have hp : ((fun m => decide (m.name = name)) ∘ f) =
      (fun m => decide (m.name = name)) := by
    funext m
    simp [Function.comp, hf]
  rw [hp]

/-- Two lines of a duplicate-free purchase mapping with the same key are
the same line. -/
lemma eq_of_nodup_keys {ps : List (String × ℤ)}
    (h : (ps.map Prod.fst).Nodup) {p q : String × ℤ}
    (hp : p ∈ ps) (hq : q ∈ ps) (hfst : p.1 = q.1) : p = q :=
  List.inj_on_of_nodup_map h hp hq hfst

/-- When the purchase keys are duplicate-free (as they are for a Python
dict), a resolved line requests at most the stock of its medicine. -/
lemma billResolved_le {s : State} {ps : List (String × ℤ)}
    (hnd : (ps.map Prod.fst).Nodup) {p : String × ℤ} (hp : p ∈ ps)
    {med : Medicine} (hmed : getMedicine s p.1 = some med)
    (hres : billResolved s ps p.1 = true) : p.2 ≤ med.quantity := by
  unfold billResolved at hres
  rw [List.any_eq_true] at hres
  obtain ⟨q, hqmem, hq⟩ := hres
  rw [Bool.and_eq_true] at hq
  obtain ⟨hq1, hq2⟩ := hq
  have hfst : q.1 = p.1 := by simpa using hq1
  rw [hfst, hmed] at hq2
  have hle : q.2 ≤ med.quantity := by simpa using hq2
  have : q = p := eq_of_nodup_keys hnd hqmem hp hfst
  rw [← this]
  exact hle

/-- Per-row effect of the commit loop of `generate_bill` for one purchase
line: rows whose id is the resolved line's medicine id receive the
snapshot quantity minus the requested quantity; other rows are unchanged. -/
def billStep (s : State) (ps : List (String × ℤ)) (p : String × ℤ)
    (m : Medicine) : Medicine :=
  if billResolved s ps p.1 then
    match getMedicine s p.1 with
    | some med =>
      if m.id = med.id then { m with quantity := med.quantity - p.2 } else m
    | none => m
  else m

lemma billStep_name (s : State) (ps : List (String × ℤ)) (p : String × ℤ)
    (m : Medicine) : (billStep s ps p m).name = m.name := by
  unfold billStep
  split
  · split
    · split <;> rfl
    · rfl
  · rfl

lemma billStep_id (s : State) (ps : List (String × ℤ)) (p : String × ℤ)
    (m : Medicine) : (billStep s ps p m).id = m.id := by
  unfold billStep
  split
  · split
    · split <;> rfl
    · rfl
  · rfl

/-- The commit loop, a fold of row-wise table updates, acts independently
on each row. -/
lemma billCommit_aux (s : State) (ps : List (String × ℤ))
    (qs : List (String × ℤ)) (meds : List Medicine) :
    qs.foldl (fun meds p =>
      if billResolved s ps p.1 then
        match getMedicine s p.1 with
        | some med =>
          meds.map (fun m =>
            if m.id = med.id then { m with quantity := med.quantity - p.2 }
            else m)
        | none => meds
      else meds) meds
    = meds.map (fun m => qs.foldl (fun m p => billStep s ps p m) m) := by
  induction qs generalizing meds with
  | nil => simp
  | cons q qs ih =>
    simp only [List.foldl_cons]
    rw [ih]
    have hstep : (if billResolved s ps q.1 then
        match getMedicine s q.1 with
        | some med =>
          meds.map (fun m =>
            if m.id = med.id then { m with quantity := med.quantity - q.2 }
            else m)
        | none => meds
      else meds) = meds.map (fun m => billStep s ps q m) := by
      unfold billStep
      by_cases h : billResolved s ps q.1 = true
      · cases hm : getMedicine s q.1 <;> simp [h, hm]
      · simp [h]
    rw [hstep, List.map_map]
    rfl

lemma billCommitMeds_eq_map (s : State) (ps : List (String × ℤ)) :
    billCommitMeds s ps =
      s.medicines.map (fun m => ps.foldl (fun m p => billStep s ps p m) m) := by
  unfold billCommitMeds
  exact billCommit_aux s ps ps s.medicines

/-- Customer resolution touches only the `customers` table. -/
lemma getOrCreateCustomer_medicines (s : State) (name : String)
    (phone : Option String) :
    (getOrCreateCustomer s name phone).2.medicines = s.medicines := by
  unfold getOrCreateCustomer
  cases s.customers.find? (fun c =>
      decide (c.name = name ∧ (c.phone = phone ∨ c.phone = none))) <;> simp

/-- Customer resolution touches only the `customers` table. -/
lemma getOrCreateCustomer_sales (s : State) (name : String)
    (phone : Option String) :
    (getOrCreateCustomer s name phone).2.sales = s.sales := by
  unfold getOrCreateCustomer
  cases s.customers.find? (fun c =>
      decide (c.name = name ∧ (c.phone = phone ∨ c.phone = none))) <;> simp

/-- Customer resolution touches only the `customers` table. -/
lemma getOrCreateCustomer_prescriptions (s : State) (name : String)
    (phone : Option String) :
    (getOrCreateCustomer s name phone).2.prescriptions = s.prescriptions := by
  unfold getOrCreateCustomer
  cases s.customers.find? (fun c =>
      decide (c.name = name ∧ (c.phone = phone ∨ c.phone = none))) <;> simp

/-! ### Preservation of the quantity invariant (claim C1) -/

lemma addMedicine_preserves_nonneg {s : State} {name : String} {price : ℚ}
    {quantity : ℤ} {supplierName expiry : Option String}
    (h : QuantitiesNonneg s) (hq : 0 ≤ quantity) :
    QuantitiesNonneg (addMedicine s name price quantity supplierName expiry) := by
  unfold QuantitiesNonneg at h ⊢
  unfold addMedicine
  cases hm : getMedicine s name with
  | none =>
    intro m' hm'
    simp only [List.mem_append, List.mem_singleton] at hm'
    rcases hm' with hm' | hm'
    · exact h m' hm'
    · rw [hm']
      exact hq
  | some med =>
    intro m' hm'
    simp only [List.mem_map] at hm'
    obtain ⟨m, hmem, rfl⟩ := hm'
    split
    · exact add_nonneg (h med (getMedicine_mem hm)) hq
    · exact h m hmem

lemma sellMedicine_preserves_nonneg {s : State} {name : String}
    {quantity : ℤ} {today : Date} (h : QuantitiesNonneg s) :
    QuantitiesNonneg (sellMedicine s name quantity today).2 := by
  unfold QuantitiesNonneg at h ⊢
  unfold sellMedicine
  cases hm : getMedicine s name with
  | none => exact h
  | some med =>
    by_cases hlt : med.quantity < quantity
    · simp only [if_pos hlt]
      exact h
    · by_cases hexp : expiryBlocks med.expiry today = true
      · simp only [if_neg hlt, if_pos hexp]
        exact h
      · simp only [if_neg hlt, if_neg hexp]
        intro m' hm'
        simp only [List.mem_map] at hm'
        obtain ⟨m, hmem, rfl⟩ := hm'
        split
        · simp only [sub_nonneg]
          exact le_of_not_lt hlt
        · exact h m hmem

lemma generateBill_preserves_nonneg {s : State} {ps : List (String × ℤ)}
    {today : Date} (h : QuantitiesNonneg s)
    (hnd : (ps.map Prod.fst).Nodup) :
    QuantitiesNonneg (generateBill s ps today).2 := by
  unfold QuantitiesNonneg at h ⊢
  unfold generateBill
  by_cases hz : billSubtotal s ps = 0
  · simp only [if_pos hz]
    exact h
  · simp only [if_neg hz]
    intro m' hm'
    rw [billCommitMeds_eq_map] at hm'
    simp only [List.mem_map] at hm'
    obtain ⟨m, hmem, rfl⟩ := hm'
    refine List.foldlRecOn (motive := fun x => 0 ≤ x.quantity) ps _ m
      (h m hmem) ?_
    intro x hx p hp
    unfold billStep
    by_cases hres : billResolved s ps p.1 = true
    · cases hmed : getMedicine s p.1 with
      | none => simpa [hres, hmed] using hx
      | some med =>
        by_cases hid : x.id = med.id
        · simp only [hres, if_true, hmed, hid, if_pos]
          simp only [sub_nonneg]
          exact billResolved_le hnd hp hmed hres
        · simpa [hres, hmed, hid] using hx
    · simpa [hres] using hx

lemma recordPrescription_medicines (s : State) (customer : String)
    (phone : Option String) (items : List (String × ℤ)) (now : String) :
    (recordPrescription s customer phone items now).medicines = s.medicines := by
  unfold recordPrescription
  cases hgc : getOrCreateCustomer s customer phone with
  | mk cid s' =>
    have hmeds := getOrCreateCustomer_medicines s customer phone
    rw [hgc] at hmeds
    simpa using hmeds

lemma deleteMedicine_preserves_nonneg {s : State} {name : String}
    (h : QuantitiesNonneg s) : QuantitiesNonneg (deleteMedicine s name) := by
  unfold QuantitiesNonneg at h ⊢
  unfold deleteMedicine
  intro m' hm'
  exact h m' (List.mem_of_mem_filter hm')

/-- C1: for every medicine in the ledger, after any sequence of the engine
operations (addMedicine, sellMedicine, generateBill, recordPrescription,
deleteMedicine) applied to a state where all quantities are non-negative
and all operation inputs are validated non-negative numbers, the
medicine's quantity remains ≥ 0. -/
theorem quantity_nonneg_after_ops (ops : List Op) (s : State)
    (h0 : QuantitiesNonneg s) (hv : ∀ op ∈ ops, ValidOp op) :
    QuantitiesNonneg (ops.foldl applyOp s) := by
  induction ops generalizing s with
  | nil => exact h0
  | cons op ops ih =>
    rw [List.foldl_cons]
    refine ih _ ?_ (fun o ho => hv o (List.mem_cons_of_mem _ ho))
    have hvop := hv op (List.mem_cons_self _ _)
    cases op with
    | addMedicine name price quantity supplierName expiry =>
      exact addMedicine_preserves_nonneg h0 hvop.2
    | sellMedicine name quantity today =>
      exact sellMedicine_preserves_nonneg h0
    | generateBill purchases today =>
      exact generateBill_preserves_nonneg h0 hvop.2
    | recordPrescription customer phone items now =>
      intro m hm
      simp only [applyOp, recordPrescription_medicines] at hm
      exact h0 m hm
    | deleteMedicine name =>
      exact deleteMedicine_preserves_nonneg h0

/-- Witness for C1: a concrete run of all five operations from the empty
database keeps every quantity non-negative. -/
theorem quantity_nonneg_after_ops_witness :
    QuantitiesNonneg (List.foldl applyOp State.empty
      [Op.addMedicine "Paracetamol" 20 50 none none,
       Op.addMedicine "Ibuprofen" 5 4 none (some "2030-01-01"),
       Op.sellMedicine "Paracetamol" 10 ⟨2024, 5, 1⟩,
       Op.generateBill [("Paracetamol", 3), ("Ibuprofen", 2)] ⟨2024, 5, 1⟩,
       Op.recordPrescription "Ann" none [("Paracetamol", 1)] "2024-05-01",
       Op.deleteMedicine "Ibuprofen"]) := by
  apply quantity_nonneg_after_ops
  · intro m hm
    simp [State.empty] at hm
  · intro op hop
    simp only [List.mem_cons, List.not_mem_nil, or_false] at hop
    rcases hop with rfl | rfl | rfl | rfl | rfl | rfl <;> unfold ValidOp <;>
      decide

/-! ### Selling (claims C2, C3, C4, C10) -/

/-- Lookup after a name-preserving row transformation of the `medicines`
table returns the transformed row. -/
lemma getMedicine_map_state (s : State) (f : Medicine → Medicine)
    (hf : ∀ m, (f m).name = m.name) (name : String)
    (s' : State) (hs' : s'.medicines = s.medicines.map f) :
    getMedicine s' name = (getMedicine s name).map f := by
  unfold getMedicine
  rw [hs']
  exact find?_name_map f hf s.medicines name

/-- Success path of `sell_medicine`: the full resulting pair. -/
lemma sellMedicine_sold {s : State} {name : String} {quantity : ℤ}
    {today : Date} {med : Medicine}
    (hmed : getMedicine s name = some med)
    (hq : quantity ≤ med.quantity)
    (hexp : expiryBlocks med.expiry today = false) :
    sellMedicine s name quantity today =
      (.sold (med.price * quantity),
       { s with
           medicines := s.medicines.map (fun m =>
             if m.id = med.id then
               { m with quantity := med.quantity - quantity }
             else m),
           sales := s.sales ++
             [⟨today, med.price * quantity,
               [⟨med.id, quantity, med.price⟩]⟩] }) := by
  simp only [sellMedicine, hmed]
  rw [if_neg (not_lt.mpr hq), if_neg (by simp [hexp])]

/-- Shared statement of the observable effects of a successful sale, given
that the expiry gate does not fire. -/
lemma sellMedicine_sold_effects {s : State} {name : String} {quantity : ℤ}
    {today : Date} {med : Medicine}
    (hmed : getMedicine s name = some med)
    (hq : quantity ≤ med.quantity)
    (hexp : expiryBlocks med.expiry today = false) :
    (sellMedicine s name quantity today).1 =
      SellResult.sold (med.price * quantity) ∧
    getMedicine (sellMedicine s name quantity today).2 name =
      some { med with quantity := med.quantity - quantity } ∧
    (sellMedicine s name quantity today).2.sales =
      s.sales ++
        [⟨today, med.price * quantity, [⟨med.id, quantity, med.price⟩]⟩] := by
  refine ⟨?_, ?_, ?_⟩
  · rw [sellMedicine_sold hmed hq hexp]
  · rw [getMedicine_map_state s
      (fun m => if m.id = med.id then
        { m with quantity := med.quantity - quantity } else m)
      (fun m => by dsimp only; split <;> rfl) name
      (sellMedicine s name quantity today).2
      (by rw [sellMedicine_sold hmed hq hexp])]
    rw [hmed]
    simp
  · rw [sellMedicine_sold hmed hq hexp]

/-- C2: when the medicine exists, the requested quantity is within stock,
and the expiry gate does not fire, `sell_medicine` returns
`price * quantity` at the price in effect at the call, decrements that
medicine's stock by exactly the requested quantity, and appends exactly
one sale dated today with one sale-item `(medicine, quantity, price)`. -/
theorem sellMedicine_success_spec (s : State) (name : String) (quantity : ℤ)
    (today : Date) (med : Medicine)
    (hmed : getMedicine s name = some med)
    (hq : quantity ≤ med.quantity)
    (hexp : expiryBlocks med.expiry today = false) :
    (sellMedicine s name quantity today).1 =
      SellResult.sold (med.price * quantity) ∧
    getMedicine (sellMedicine s name quantity today).2 name =
      some { med with quantity := med.quantity - quantity } ∧
    (sellMedicine s name quantity today).2.sales =
      s.sales ++
        [⟨today, med.price * quantity, [⟨med.id, quantity, med.price⟩]⟩] :=
  sellMedicine_sold_effects hmed hq hexp

/-- Demonstration ledger: one medicine, Paracetamol, price 20, stock 50. -/
def demoMed : Medicine := ⟨1, "Paracetamol", 20, 50, none, none⟩

/-- Demonstration ledger state holding only `demoMed`. -/
def demoState : State :=
  { State.empty with medicines := [demoMed], nextMedId := 2 }

/-- Witness for C2: selling 10 Paracetamol at price 20 from stock 50. -/
theorem sellMedicine_success_spec_witness :
    (sellMedicine demoState "Paracetamol" 10 ⟨2024, 5, 1⟩).1 =
      SellResult.sold (demoMed.price * 10) ∧
    getMedicine (sellMedicine demoState "Paracetamol" 10 ⟨2024, 5, 1⟩).2
        "Paracetamol" =
      some { demoMed with quantity := demoMed.quantity - 10 } ∧
    (sellMedicine demoState "Paracetamol" 10 ⟨2024, 5, 1⟩).2.sales =
      demoState.sales ++
        [⟨⟨2024, 5, 1⟩, demoMed.price * 10,
          [⟨demoMed.id, 10, demoMed.price⟩]⟩] :=
  sellMedicine_success_spec demoState "Paracetamol" 10 ⟨2024, 5, 1⟩ demoMed
    rfl (by decide) rfl

/-- C3: when the medicine exists but the requested quantity exceeds stock,
`sell_medicine` fails with the insufficient-stock outcome and the whole
ledger state is unchanged. -/
theorem sellMedicine_insufficient_spec (s : State) (name : String)
    (quantity : ℤ) (today : Date) (med : Medicine)
    (hmed : getMedicine s name = some med)
    (hq : med.quantity < quantity) :
    sellMedicine s name quantity today = (SellResult.notEnoughStock, s) := by
  simp only [sellMedicine, hmed]
  rw [if_pos hq]

/-- Witness for C3: selling 100 Paracetamol from stock 50 fails and leaves
the state untouched. -/
theorem sellMedicine_insufficient_spec_witness :
    sellMedicine demoState "Paracetamol" 100 ⟨2024, 5, 1⟩ =
      (SellResult.notEnoughStock, demoState) :=
  sellMedicine_insufficient_spec demoState "Paracetamol" 100 ⟨2024, 5, 1⟩
    demoMed rfl (by decide)

/-- Ledger with an expired medicine in short supply: Amoxicillin, price 10,
stock 3, expiry 2020-01-01. -/
def expiredShortState : State :=
  { State.empty with
      medicines := [⟨1, "Amoxicillin", 10, 3, none, some "2020-01-01"⟩],
      nextMedId := 2 }

/-- Counterexample for C4 as stated: the stock check runs before the expiry
check, so a sale of 5 units of an expired medicine with stock 3 fails with
the insufficient-stock outcome, not with the expired outcome. -/
theorem sellMedicine_expired_cex :
    getMedicine expiredShortState "Amoxicillin" =
      some ⟨1, "Amoxicillin", 10, 3, none, some "2020-01-01"⟩ ∧
    expiryBlocks (some "2020-01-01") ⟨2024, 6, 1⟩ = true ∧
    (sellMedicine expiredShortState "Amoxicillin" 5 ⟨2024, 6, 1⟩).1 =
      SellResult.notEnoughStock ∧
    (sellMedicine expiredShortState "Amoxicillin" 5 ⟨2024, 6, 1⟩).1 ≠
      SellResult.expired :=
  ⟨rfl, rfl, rfl, by decide⟩

/-- C4 (amended): when the medicine exists, the requested quantity is
within stock, and its expiry date is set, parses, and is strictly before
the current date, `sell_medicine` fails with the expired outcome and the
whole ledger state is unchanged. -/
theorem sellMedicine_expired_spec (s : State) (name : String) (quantity : ℤ)
    (today : Date) (med : Medicine) (e : String) (d : Date)
    (hmed : getMedicine s name = some med)
    (hq : quantity ≤ med.quantity)
    (he : med.expiry = some e)
    (hd : parseDate e = some d)
    (hb : d.before today = true) :
    sellMedicine s name quantity today = (SellResult.expired, s) := by
  have hne : e ≠ "" := by
    intro hcon
    rw [hcon, show parseDate "" = none from rfl] at hd
    exact Option.noConfusion hd
  have hblock : expiryBlocks med.expiry today = true := by
    rw [he]
    simp only [expiryBlocks]
    rw [if_neg hne, hd]
    exact hb
  simp only [sellMedicine, hmed]
  rw [if_neg (not_lt.mpr hq), if_pos hblock]

/-- Witness for C4 (amended): selling 2 units of the expired Amoxicillin
(stock 3) fails with the expired outcome. -/
theorem sellMedicine_expired_spec_witness :
    sellMedicine expiredShortState "Amoxicillin" 2 ⟨2024, 6, 1⟩ =
      (SellResult.expired, expiredShortState) :=
  sellMedicine_expired_spec expiredShortState "Amoxicillin" 2 ⟨2024, 6, 1⟩
    ⟨1, "Amoxicillin", 10, 3, none, some "2020-01-01"⟩ "2020-01-01"
    ⟨2020, 1, 1⟩ rfl (by decide) rfl rfl rfl

/-- C10: when the medicine exists, the requested quantity is within stock,
and the stored expiry string is non-empty but does not parse as a
YYYY-MM-DD date, the sale proceeds as a success: stock is decremented, one
sale is recorded, and the total is returned. -/
theorem sellMedicine_invalid_expiry_spec (s : State) (name : String)
    (quantity : ℤ) (today : Date) (med : Medicine) (e : String)
    (hmed : getMedicine s name = some med)
    (hq : quantity ≤ med.quantity)
    (he : med.expiry = some e)
    (hne : e ≠ "")
    (hp : parseDate e = none) :
    (sellMedicine s name quantity today).1 =
      SellResult.sold (med.price * quantity) ∧
    getMedicine (sellMedicine s name quantity today).2 name =
      some { med with quantity := med.quantity - quantity } ∧
    (sellMedicine s name quantity today).2.sales =
      s.sales ++
        [⟨today, med.price * quantity, [⟨med.id, quantity, med.price⟩]⟩] := by
  have hexp : expiryBlocks med.expiry today = false := by
    rw [he]
    simp only [expiryBlocks]
    rw [if_neg hne, hp]
  exact sellMedicine_sold_effects hmed hq hexp

/-- Ledger with a medicine whose stored expiry string is not a date. -/
def invalidExpiryState : State :=
  { State.empty with
      medicines := [⟨1, "Zinc", 7, 5, none, some "sometime"⟩],
      nextMedId := 2 }

/-- Witness for C10: selling 2 Zinc whose stored expiry is the non-date
string "sometime" succeeds. -/
theorem sellMedicine_invalid_expiry_spec_witness :
    (sellMedicine invalidExpiryState "Zinc" 2 ⟨2024, 5, 1⟩).1 =
      SellResult.sold ((7 : ℚ) * 2) ∧
    getMedicine (sellMedicine invalidExpiryState "Zinc" 2 ⟨2024, 5, 1⟩).2
        "Zinc" =
      some ⟨1, "Zinc", 7, 3, none, some "sometime"⟩ ∧
    (sellMedicine invalidExpiryState "Zinc" 2 ⟨2024, 5, 1⟩).2.sales =
      invalidExpiryState.sales ++ [⟨⟨2024, 5, 1⟩, (7 : ℚ) * 2, [⟨1, 2, 7⟩]⟩] :=
  sellMedicine_invalid_expiry_spec invalidExpiryState "Zinc" 2 ⟨2024, 5, 1⟩
    ⟨1, "Zinc", 7, 5, none, some "sometime"⟩ "sometime" rfl (by decide) rfl
    (by decide) rfl

/-! ### Bill generation (claims C5, C6, C7) -/

/-- A fold step of the pricing pass leaves the accumulator unchanged on
every line that did not resolve. -/
lemma billSubtotal_aux (s : State) (ps qs : List (String × ℤ)) (acc : ℚ)
    (h : ∀ p ∈ qs, billResolved s ps p.1 = false) :
    qs.foldl (fun acc p =>
      if billResolved s ps p.1 then
        match getMedicine s p.1 with
        | some med => acc + med.price * p.2
        | none => acc
      else acc) acc = acc := by
  induction qs generalizing acc with
  | nil => rfl
  | cons q qs ih =>
    rw [List.foldl_cons, if_neg (by simp [h q (List.mem_cons_self q qs)])]
    exact ih acc (fun p hp => h p (List.mem_cons_of_mem q hp))

/-- When no line resolves, the subtotal is zero. -/
lemma billSubtotal_eq_zero {s : State} {ps : List (String × ℤ)}
    (h : ∀ p ∈ ps, billResolved s ps p.1 = false) :
    billSubtotal s ps = 0 := by
  unfold billSubtotal
  exact billSubtotal_aux s ps ps 0 h

/-- C7: when no purchase line resolves, `generate_bill` returns 0, records
no sale, and changes no stock: the resulting state is exactly the input
state. -/
theorem generateBill_no_resolvable_spec (s : State)
    (ps : List (String × ℤ)) (today : Date)
    (h : ∀ p ∈ ps, billResolved s ps p.1 = false) :
    generateBill s ps today = (0, s) := by
  simp only [generateBill]
  rw [if_pos (billSubtotal_eq_zero h)]

/-- Witness for C7: a bill whose two lines are an unknown medicine and an
out-of-stock request leaves the ledger untouched and returns 0. -/
theorem generateBill_no_resolvable_spec_witness :
    generateBill demoState [("Nope", 1), ("Paracetamol", 999)] ⟨2024, 5, 1⟩ =
      (0, demoState) :=
  generateBill_no_resolvable_spec demoState
    [("Nope", 1), ("Paracetamol", 999)] ⟨2024, 5, 1⟩ (by decide)

/-- Return value of `generate_bill` as a closed formula of the subtotal
(both branches of the zero-subtotal short-circuit agree with it). -/
lemma billReturn_formula (s : State) (ps : List (String × ℤ)) (today : Date) :
    (generateBill s ps today).1 =
      billSubtotal s ps + billSubtotal s ps * 0.05 -
        (if 1000 ≤ billSubtotal s ps then billSubtotal s ps * 0.10 else 0) := by
  by_cases hz : billSubtotal s ps = 0
  · simp only [generateBill, billTotal, if_pos hz, hz]
    norm_num
  · simp only [generateBill, billTotal, if_neg hz]

/-- Demonstration medicine for billing: price 100, stock 10. -/
def medA : Medicine := ⟨1, "A", 100, 10, none, none⟩

/-- Demonstration medicine for billing: price 5, stock 1. -/
def medB : Medicine := ⟨2, "B", 5, 1, none, none⟩

/-- Demonstration ledger for billing. -/
def billDemoState : State :=
  { State.empty with medicines := [medA, medB], nextMedId := 3 }

/-- Demonstration purchases: one resolvable line, one line exceeding
stock, one unknown medicine. -/
def billDemoPurchases : List (String × ℤ) := [("A", 2), ("B", 5), ("C", 1)]

/-- C6: the returned total is `S + 0.05*S - (0.10*S if S >= 1000 else 0)`
over the subtotal `S` of the resolved lines; in particular `S = 200` gives
210 and `S = 1000` gives 950. -/
theorem generateBill_total_formula_spec :
    (∀ (s : State) (ps : List (String × ℤ)) (today : Date),
      (generateBill s ps today).1 =
        billSubtotal s ps + billSubtotal s ps * 0.05 -
          (if 1000 ≤ billSubtotal s ps then billSubtotal s ps * 0.10 else 0)) ∧
    billSubtotal billDemoState [("A", 2)] = 200 ∧
    (generateBill billDemoState [("A", 2)] ⟨2024, 5, 1⟩).1 = 210 ∧
    billSubtotal billDemoState [("A", 10)] = 1000 ∧
    (generateBill billDemoState [("A", 10)] ⟨2024, 5, 1⟩).1 = 950 := by
  have h200 : billSubtotal billDemoState [("A", 2)] = 200 := by
    have hres : billResolved billDemoState [("A", 2)] "A" = true := by decide
    simp only [billSubtotal, List.foldl_cons, List.foldl_nil, hres, if_true,
      show getMedicine billDemoState "A" = some medA from rfl]
    norm_num [medA]
  have h1000 : billSubtotal billDemoState [("A", 10)] = 1000 := by
    have hres : billResolved billDemoState [("A", 10)] "A" = true := by decide
    simp only [billSubtotal, List.foldl_cons, List.foldl_nil, hres, if_true,
      show getMedicine billDemoState "A" = some medA from rfl]
    norm_num [medA]
  refine ⟨billReturn_formula, h200, ?_, h1000, ?_⟩
  · rw [billReturn_formula, h200]
    norm_num
  · rw [billReturn_formula, h1000]
    norm_num

/-- Counterexample for C5 as stated: a bill whose only line resolves (the
medicine exists and stock covers the request) but with requested quantity
0 has subtotal 0, so the zero-subtotal short-circuit returns 0, appends no
sale, and decrements nothing, even though a line resolved. -/
theorem generateBill_zero_qty_cex :
    billResolved billDemoState [("A", 0)] "A" = true ∧
    generateBill billDemoState [("A", 0)] ⟨2024, 5, 1⟩ =
      (0, billDemoState) ∧
    (generateBill billDemoState [("A", 0)] ⟨2024, 5, 1⟩).2.sales =
      billDemoState.sales := by
  have hz : billSubtotal billDemoState [("A", 0)] = 0 := by
    have hres : billResolved billDemoState [("A", 0)] "A" = true := by decide
    simp only [billSubtotal, List.foldl_cons, List.foldl_nil, hres, if_true,
      show getMedicine billDemoState "A" = some medA from rfl]
    norm_num
  have hbill : generateBill billDemoState [("A", 0)] ⟨2024, 5, 1⟩ =
      (0, billDemoState) := by
    simp only [generateBill]
    rw [if_pos hz]
  exact ⟨by decide, hbill, by rw [hbill]⟩

/-- The commit fold keeps every row's name. -/
lemma billFold_name (s : State) (ps : List (String × ℤ)) (m : Medicine) :
    (ps.foldl (fun m q => billStep s ps q m) m).name = m.name := by
  refine List.foldlRecOn (motive := fun x => x.name = m.name) ps _ m rfl ?_
  intro x hx q hq
  rw [billStep_name]
  exact hx

/-- A row of the original table is untouched by the commit fold when every
line of the iterated segment either targets a different name or did not
resolve. -/
lemma billFold_fixes {s : State} {ps : List (String × ℤ)}
    (hids : (s.medicines.map Medicine.id).Nodup)
    {med : Medicine} (hmedmem : med ∈ s.medicines)
    {l : List (String × ℤ)}
    (hl : ∀ q ∈ l, q.1 ≠ med.name ∨ billResolved s ps q.1 = false)
    {x : Medicine} (hx : x.id = med.id) :
    l.foldl (fun m q => billStep s ps q m) x = x := by
  induction l with
  | nil => rfl
  | cons q l ih =>
    rw [List.foldl_cons]
    have hqfix : billStep s ps q x = x := by
      unfold billStep
      rcases hl q (List.mem_cons_self q l) with hname | hres0
      · by_cases hres : billResolved s ps q.1 = true
        · rw [if_pos hres]
          cases hget : getMedicine s q.1 with
          | none => rfl
          | some medq =>
            have hqname : medq.name = q.1 := getMedicine_name hget
            have hne : medq.id ≠ med.id := by
              intro hid
              have heqm : medq = med := List.inj_on_of_nodup_map hids
                (getMedicine_mem hget) hmedmem hid
              rw [heqm] at hqname
              exact hname hqname.symm
            have hxne : ¬ x.id = medq.id := by
              rw [hx]
              exact fun hc => hne hc.symm
            simp [hxne]
        · rw [if_neg hres]
      · rw [if_neg (by simp [hres0])]
    rw [hqfix]
    exact ih (fun q' hq' => hl q' (List.mem_cons_of_mem q hq'))

/-- Effect of the commit fold on the medicine of a resolved line: its
quantity is set to the snapshot quantity minus that line's request. -/
lemma billFold_resolved {s : State} {ps : List (String × ℤ)}
    (hnd : (ps.map Prod.fst).Nodup)
    (hids : (s.medicines.map Medicine.id).Nodup)
    {p : String × ℤ} (hp : p ∈ ps)
    {med : Medicine} (hmed : getMedicine s p.1 = some med)
    (hres : billResolved s ps p.1 = true) :
    ps.foldl (fun m q => billStep s ps q m) med =
      { med with quantity := med.quantity - p.2 } := by
  obtain ⟨l₁, l₂, rfl⟩ := List.append_of_mem hp
  have hmedname : med.name = p.1 := getMedicine_name hmed
  have hmem : med ∈ s.medicines := getMedicine_mem hmed
  rw [List.map_append, List.nodup_append] at hnd
  obtain ⟨hnd1, hnd2, hdisj⟩ := hnd
  rw [List.map_cons, List.nodup_cons] at hnd2
  obtain ⟨hp1notl2, hnd2l⟩ := hnd2
  have hp1notl1 : p.1 ∉ l₁.map Prod.fst := fun hmem1 =>
    hdisj hmem1 (List.mem_cons_self _ _)
  rw [List.foldl_append, List.foldl_cons]
  rw [billFold_fixes hids hmem (fun q hq => Or.inl (fun heq => hp1notl1 (by
    rw [hmedname] at heq
    exact heq ▸ List.mem_map_of_mem Prod.fst hq))) rfl]
  have h2 : billStep s (l₁ ++ p :: l₂) p med =
      { med with quantity := med.quantity - p.2 } := by
    unfold billStep
    rw [if_pos hres, hmed]
    simp
  rw [h2]
  exact billFold_fixes hids hmem (fun q hq => Or.inl (fun heq => hp1notl2 (by
    rw [hmedname] at heq
    exact heq ▸ List.mem_map_of_mem Prod.fst hq))) rfl

/-- Effect of the commit fold on the medicine of a line that did not
resolve: nothing. -/
lemma billFold_unresolved {s : State} {ps : List (String × ℤ)}
    (hids : (s.medicines.map Medicine.id).Nodup)
    {p : String × ℤ}
    {med : Medicine} (hmed : getMedicine s p.1 = some med)
    (hres : billResolved s ps p.1 = false) :
    ps.foldl (fun m q => billStep s ps q m) med = med := by
  apply billFold_fixes hids (getMedicine_mem hmed) _ rfl
  intro q hq
  by_cases heq : q.1 = p.1
  · right
    rw [heq]
    exact hres
  · left
    rw [getMedicine_name hmed]
    exact heq

/-- C5 (amended): when the subtotal over the resolved lines is nonzero
(and the purchase keys and the table's medicine ids are duplicate-free, as
they are for a Python dict and an AUTOINCREMENT column), `generate_bill`
returns the total, appends exactly one sale whose sale-items are exactly
the resolved lines at their snapshot unit price, decrements each resolved
line's medicine by exactly its requested quantity, and leaves the medicine
of every skipped line (unknown or insufficient stock) unchanged. -/
theorem generateBill_commit_spec (s : State) (ps : List (String × ℤ))
    (today : Date)
    (hnz : billSubtotal s ps ≠ 0)
    (hnd : (ps.map Prod.fst).Nodup)
    (hids : (s.medicines.map Medicine.id).Nodup) :
    (generateBill s ps today).1 = billTotal s ps ∧
    (generateBill s ps today).2.sales =
      s.sales ++ [⟨today, billTotal s ps, billItems s ps⟩] ∧
    (∀ p ∈ ps, ∀ med, getMedicine s p.1 = some med →
      billResolved s ps p.1 = true →
      getMedicine (generateBill s ps today).2 p.1 =
        some { med with quantity := med.quantity - p.2 }) ∧
    (∀ p ∈ ps, billResolved s ps p.1 = false →
      getMedicine (generateBill s ps today).2 p.1 = getMedicine s p.1) := by
  have hstate : (generateBill s ps today).2 =
      { s with medicines := billCommitMeds s ps,
               sales := s.sales ++ [⟨today, billTotal s ps, billItems s ps⟩] } := by
    simp only [generateBill]
    rw [if_neg hnz]
  have hmeds : (generateBill s ps today).2.medicines =
      s.medicines.map (fun m => ps.foldl (fun m q => billStep s ps q m) m) := by
    rw [hstate]
    exact billCommitMeds_eq_map s ps
  have hget : ∀ name, getMedicine (generateBill s ps today).2 name =
      (getMedicine s name).map
        (fun m => ps.foldl (fun m q => billStep s ps q m) m) :=
    fun name => getMedicine_map_state s _ (billFold_name s ps) name _ hmeds
  refine ⟨?_, ?_, ?_, ?_⟩
  · simp only [generateBill]
    rw [if_neg hnz]
  · rw [hstate]
  · intro p hp med hmed hres
    rw [hget p.1, hmed, Option.map_some']
    rw [billFold_resolved hnd hids hp hmed hres]
  · intro p hp hres
    rw [hget p.1]
    cases hmedo : getMedicine s p.1 with
    | none => rfl
    | some med =>
      rw [Option.map_some']
      rw [billFold_unresolved hids hmedo hres]

/-- Witness for C5 (amended): on the demonstration ledger, the bill
[A x2 (resolved), B x5 (insufficient), C x1 (unknown)] returns the total,
sets A's stock to 10 - 2, and leaves B untouched. -/
theorem generateBill_commit_spec_witness :
    (generateBill billDemoState billDemoPurchases ⟨2024, 5, 1⟩).1 =
      billTotal billDemoState billDemoPurchases ∧
    getMedicine (generateBill billDemoState billDemoPurchases
        ⟨2024, 5, 1⟩).2 "A" =
      some { medA with quantity := medA.quantity - 2 } ∧
    getMedicine (generateBill billDemoState billDemoPurchases
        ⟨2024, 5, 1⟩).2 "B" = getMedicine billDemoState "B" := by
  have hnz : billSubtotal billDemoState billDemoPurchases ≠ 0 := by
    show billSubtotal billDemoState [("A", 2), ("B", 5), ("C", 1)] ≠ 0
    have hresA : billResolved billDemoState
        [("A", 2), ("B", 5), ("C", 1)] "A" = true := by decide
    have hresB : billResolved billDemoState
        [("A", 2), ("B", 5), ("C", 1)] "B" = false := by decide
    have hresC : billResolved billDemoState
        [("A", 2), ("B", 5), ("C", 1)] "C" = false := by decide
    simp only [billSubtotal, List.foldl_cons, List.foldl_nil, hresA, hresB,
      hresC, if_true, Bool.false_eq_true, if_false,
      show getMedicine billDemoState "A" = some medA from rfl]
    norm_num [medA]
  have h := generateBill_commit_spec billDemoState billDemoPurchases
    ⟨2024, 5, 1⟩ hnz (by decide) (by decide)
  exact ⟨h.1, h.2.2.1 ("A", 2) (by decide) medA rfl (by decide),
    h.2.2.2 ("B", 5) (by decide) (by decide)⟩

/-! ### Restocking (claim C8) -/

/-- C8: adding a medicine that already exists updates the single existing
row — quantity is increased by exactly the given quantity, while price,
supplier and expiry are overwritten with the new values — and never
creates a second row: the table size and the number of rows carrying this
name are unchanged. -/
theorem addMedicine_existing_spec (s : State) (name : String) (price : ℚ)
    (quantity : ℤ) (supplierName expiry : Option String) (med : Medicine)
    (hmed : getMedicine s name = some med) :
    getMedicine (addMedicine s name price quantity supplierName expiry) name =
      some { med with price := price, quantity := med.quantity + quantity,
                      supplierId := resolveSupplier s supplierName,
                      expiry := expiry } ∧
    (addMedicine s name price quantity supplierName expiry).medicines.length =
      s.medicines.length ∧
    ((addMedicine s name price quantity supplierName
        expiry).medicines.countP (fun m => m.name = name)) =
      s.medicines.countP (fun m => m.name = name) := by
  have hfname : ∀ m : Medicine,
      (if m.id = med.id then
        { m with price := price, quantity := med.quantity + quantity,
                 supplierId := resolveSupplier s supplierName,
                 expiry := expiry } else m).name = m.name := by
    intro m
    split <;> rfl
  have hstate : addMedicine s name price quantity supplierName expiry =
      { s with medicines := s.medicines.map (fun m =>
          if m.id = med.id then
            { m with price := price, quantity := med.quantity + quantity,
                     supplierId := resolveSupplier s supplierName,
                     expiry := expiry } else m) } := by
    simp only [addMedicine, hmed]
  refine ⟨?_, ?_, ?_⟩
  · rw [getMedicine_map_state s
      (fun m => if m.id = med.id then
        { m with price := price, quantity := med.quantity + quantity,
                 supplierId := resolveSupplier s supplierName,
                 expiry := expiry } else m)
      hfname name _ (by rw [hstate])]
    rw [hmed, Option.map_some']
    simp
  · rw [hstate]
    simp
  · rw [hstate]
    show List.countP _ (s.medicines.map _) = _
    rw [List.countP_map]
    congr 1
    funext m
    simp only [Function.comp]
    rw [hfname m]

/-- Witness for C8: restocking Paracetamol (price 20, stock 50) with 7
units at the new price 25 and a new expiry yields one row with stock 57,
price 25, and the new expiry. -/
theorem addMedicine_existing_spec_witness :
    getMedicine (addMedicine demoState "Paracetamol" 25 7 none
        (some "2030-01-01")) "Paracetamol" =
      some { demoMed with price := 25, quantity := demoMed.quantity + 7,
                          supplierId := resolveSupplier demoState none,
                          expiry := some "2030-01-01" } ∧
    (addMedicine demoState "Paracetamol" 25 7 none
        (some "2030-01-01")).medicines.length =
      demoState.medicines.length ∧
    ((addMedicine demoState "Paracetamol" 25 7 none
        (some "2030-01-01")).medicines.countP
        (fun m => m.name = "Paracetamol")) =
      demoState.medicines.countP (fun m => m.name = "Paracetamol") :=
  addMedicine_existing_spec demoState "Paracetamol" 25 7 none
    (some "2030-01-01") demoMed rfl

/-! ### Prescriptions (claim C9) -/

/-- Prescription line-item resolution reads only the `medicines` table. -/
lemma prescriptionItems_congr {s s' : State}
    (h : s'.medicines = s.medicines) (items : List (String × ℤ)) :
    prescriptionItems s' items = prescriptionItems s items := by
  unfold prescriptionItems getMedicine
  rw [h]

/-- Number of recorded prescription line items: exactly the items whose
medicine name resolves. -/
lemma prescriptionItems_length (s : State) (items : List (String × ℤ)) :
    (prescriptionItems s items).length =
      items.countP (fun p => (getMedicine s p.1).isSome) := by
  unfold prescriptionItems
  induction items with
  | nil => rfl
  | cons p items ih =>
    rw [List.filterMap_cons, List.countP_cons]
    cases h : getMedicine s p.1 with
    | none => simp [h, ih]
    | some med => simp [h, ih]

/-- C9: recording a prescription never changes any medicine's quantity
(the `medicines` table is untouched), appends exactly one prescription
whose line items are the resolvable items, every recorded line item
references an existing medicine, and exactly the non-resolving items are
skipped. -/
theorem recordPrescription_frame_spec (s : State) (customer : String)
    (phone : Option String) (items : List (String × ℤ)) (now : String) :
    (recordPrescription s customer phone items now).medicines =
      s.medicines ∧
    (recordPrescription s customer phone items now).prescriptions =
      s.prescriptions ++
        [⟨(getOrCreateCustomer s customer phone).1, customer, now,
          prescriptionItems s items⟩] ∧
    (∀ it ∈ prescriptionItems s items,
      ∃ med ∈ s.medicines, it.medicineId = med.id) ∧
    (prescriptionItems s items).length =
      items.countP (fun p => (getMedicine s p.1).isSome) := by
  refine ⟨recordPrescription_medicines s customer phone items now, ?_, ?_,
    prescriptionItems_length s items⟩
  · unfold recordPrescription
    cases hgc : getOrCreateCustomer s customer phone with
    | mk cid s2 =>
      have hpres := getOrCreateCustomer_prescriptions s customer phone
      have hmeds := getOrCreateCustomer_medicines s customer phone
      rw [hgc] at hpres hmeds
      simp only at hpres hmeds
      simp only [hpres, hgc]
      rw [prescriptionItems_congr hmeds]
  · intro it hit
    unfold prescriptionItems at hit
    rw [List.mem_filterMap] at hit
    obtain ⟨p, hpmem, hpit⟩ := hit
    rw [Option.map_eq_some'] at hpit
    obtain ⟨med, hmedp, hgit⟩ := hpit
    refine ⟨med, getMedicine_mem hmedp, ?_⟩
    rw [← hgit]

end Pharmacy
